import Mathlib

/-!
Verification development for the PrepGap-Lens core (src/core of the
repository): evidence extraction (extract.py), readiness scoring
(score.py), and the day planner with mastery feedback (planner.py).

Python floats are modelled as exact rationals (every constant in the
source is an exact decimal), Python ints as Lean integers, Python dicts
as insertion-ordered association lists, and Python's stable list.sort as
List.mergeSort (also a stable sort) keyed by the same comparison.
Python's seeded random.Random(seed + day) is modelled as an abstract
deterministic draw stream obtained from an arbitrary function of
seed + day; the draws are consumed only by choose_resource.
-/

namespace PrepGap

/-! ### Python dict model: insertion-ordered association list -/

/-- Python dict lookup d.get(k): the binding of the first (only) entry with key k. -/
def dget? {α : Type} (d : List (String × α)) (k : String) : Option α :=
  (d.find? (fun p => p.1 = k)).map Prod.snd

/-- Python d.get(k, default). -/
def dgetD {α : Type} (d : List (String × α)) (k : String) (v : α) : α :=
  (dget? d k).getD v

/-- Python `k in d`. -/
def dmem {α : Type} (d : List (String × α)) (k : String) : Bool :=
  (d.find? (fun p => p.1 = k)).isSome

/-- Python d[k] = v: overwrite in place when the key exists, else append. -/
def dset {α : Type} (d : List (String × α)) (k : String) (v : α) : List (String × α) :=
  if d.any (fun p => p.1 = k) then d.map (fun p => if p.1 = k then (k, v) else p)
  else d ++ [(k, v)]

/-- Python d.keys() in insertion order. -/
def dkeys {α : Type} (d : List (String × α)) : List String :=
  d.map Prod.fst

/-- Python d.values() in insertion order. -/
def dvalues {α : Type} (d : List (String × α)) : List α :=
  d.map Prod.snd

/-! ### Data model (skillmap.py) -/

structure Resource where
  title : String
  type : String
  credibility : String
  reason : String
  url : String
deriving DecidableEq

structure Skill where
  id : String
  name : String
  weight : Int
  keywords : List String
  prereqs : List String
  assessment : List String
  resources : List Resource
  category : String
deriving DecidableEq

structure SkillMap where
  role : String
  version : String
  categories : List String
  skills_by_id : List (String × Skill)
deriving DecidableEq

/-- The loader's guarantee (load_skill_map): skills_by_id is keyed by the
skill's own unique id. -/
def SkillMap.WF (m : SkillMap) : Prop :=
  (m.skills_by_id.map Prod.fst).Nodup ∧ ∀ p ∈ m.skills_by_id, (p.2).id = p.1

instance (m : SkillMap) : Decidable m.WF := by
  unfold SkillMap.WF; infer_instance

/-- Shared clamp helper (_clamp01 in score.py and planner.py). -/
def clamp01 (x : ℚ) : ℚ :=
  if x < 0 then 0 else if x > 1 then 1 else x

/-! ### Evidence extractor (extract.py) -/

structure SkillEvidence where
  skill_id : String
  matched_phrases : List String
  match_count : Nat
deriving DecidableEq

structure ExtractionResult where
  coverage_by_skill : List (String × ℚ)
  evidence_by_skill : List (String × SkillEvidence)
deriving DecidableEq

/-- ASCII model of Python str.lower (all inputs in this development are ASCII). -/
def pyLower (c : Char) : Char :=
  if 'A' ≤ c ∧ c ≤ 'Z' then Char.ofNat (c.toNat + 32) else c

/-- The ASCII characters the regex class matches with the backslash-s escape. -/
def isPyWs (c : Char) : Bool :=
  c = ' ' || c = '\t' || c = '\n' || c = '\r' || c = '\x0b' || c = '\x0c'

/-- A character kept by the first substitution in _normalize: a-z, 0-9 or plus. -/
def keepChar (c : Char) : Bool :=
  ('a' ≤ c && c ≤ 'z') || ('0' ≤ c && c ≤ '9') || c = '+'

/-- First substitution of _normalize: everything outside the kept class and
whitespace becomes a space. -/
def punctToSpace (c : Char) : Char :=
  if keepChar c || isPyWs c then c else ' '

/-- Second substitution of _normalize: each maximal whitespace run becomes one space. -/
def collapseWs : Bool → List Char → List Char
  | _, [] => []
  | prevWs, c :: rest =>
    if isPyWs c then
      if prevWs then collapseWs true rest
      else ' ' :: collapseWs true rest
    else c :: collapseWs false rest

/-- str.strip() on the collapsed text (only plain spaces remain). -/
def stripSpaces (l : List Char) : List Char :=
  ((l.dropWhile (fun c => c = ' ')).reverse.dropWhile (fun c => c = ' ')).reverse

/-- _normalize from extract.py. -/
def pyNormalize (s : String) : String :=
  String.mk (stripSpaces (collapseWs false ((s.data.map pyLower).map punctToSpace)))

/-- A space or the end of the text: the closing group of the boundary regex. -/
def headBound : List Char → Bool
  | [] => true
  | c :: _ => c = ' '

/-- The phrase matches right here and is followed by a space or the end. -/
def matchHere : List Char → List Char → Bool
  | [], rest => headBound rest
  | _ :: _, [] => false
  | p :: ps, t :: ts => p = t && matchHere ps ts

/-- The phrase matches somewhere after a space. -/
def scanMatch (p : List Char) : List Char → Bool
  | [] => false
  | c :: rest => (c = ' ' && matchHere p rest) || scanMatch p rest

/-- _phrase_in_text: the phrase occurs bounded by spaces or the text's edges. -/
def phrase_in_text (norm_text norm_phrase : String) : Bool :=
  if norm_phrase.isEmpty then false
  else matchHere norm_phrase.data norm_text.data || scanMatch norm_phrase.data norm_text.data

/-- _find_matches: the phrases present in the text, in phrase order. -/
def find_matches (norm_text : String) (norm_phrases : List String) : List String :=
  norm_phrases.filter (fun p => phrase_in_text norm_text p)

/-- _skill_phrases: keywords then synonyms, each normalized, empties dropped,
deduplicated keeping first occurrences. -/
def skill_phrases (skill : Skill) (synonym_phrases : List (String × List String)) : List String :=
  (skill.keywords ++ dgetD synonym_phrases skill.id []).foldl
    (fun out p =>
      let p2 := pyNormalize p
      if p2.isEmpty then out
      else if out.contains p2 then out
      else out ++ [p2])
    []

/-- _confidence_from_matches: the step table on the distinct match count. -/
def confidence_from_matches (unique_match_count : Nat) : ℚ :=
  if unique_match_count = 0 then 0.05
  else if unique_match_count = 1 then 0.35
  else if unique_match_count = 2 then 0.55
  else if unique_match_count = 3 then 0.70
  else if unique_match_count = 4 then 0.82
  else 0.90

/-- DEFAULT_SYNONYMS from extract.py. -/
def DEFAULT_SYNONYMS : List (String × List String) :=
  [ ("ml_basics",
      ["supervised learning", "classification", "regression", "gradient descent",
       "loss", "objective function"]),
    ("bias_variance",
      ["generalization", "regularization", "ridge", "lasso", "overfit", "underfit"]),
    ("metrics",
      ["confusion matrix", "roc auc", "auc", "precision", "recall", "f1", "threshold"]),
    ("cv_leakage",
      ["cross validation", "kfold", "stratified kfold", "data leakage",
       "train test split", "pipeline"]),
    ("pandas_cleaning",
      ["pandas", "data cleaning", "imputation", "missing values", "outliers",
       "data preprocessing"]),
    ("feature_engineering",
      ["feature engineering", "one hot", "encoding", "standardization",
       "normalization", "scaling"]),
    ("trees_boosting",
      ["random forest", "xgboost", "lightgbm", "decision tree", "boosting", "bagging"]),
    ("nn_basics",
      ["neural network", "deep learning", "backprop", "relu", "dropout"]),
    ("ml_systems_basics",
      ["fastapi", "flask", "api", "inference", "latency", "deployment"]),
    ("ml_storytelling",
      ["error analysis", "tradeoff", "stakeholders", "model choice", "explainability"]) ]

/-- Python string comparison: lexicographic strict order on code points. -/
def strLtChars : List Char → List Char → Bool
  | [], [] => false
  | [], _ :: _ => true
  | _ :: _, [] => false
  | a :: as, b :: bs => if a = b then strLtChars as bs else decide (a < b)

/-- The matching non-strict order used as the stable-sort key relation. -/
def pyStrLe (a b : String) : Bool :=
  !(strLtChars b.data a.data)

/-- Python sorted() on strings: stable merge sort by the code-point order. -/
def pySortStrs (l : List String) : List String :=
  l.mergeSort pyStrLe

/-- The per-skill body of the extraction loop: the stored confidence and evidence. -/
def extract_one (text : String) (syns : List (String × List String)) (max_confidence : ℚ)
    (skill : Skill) : ℚ × SkillEvidence :=
  let phrases := skill_phrases skill syns
  let matched := find_matches text phrases
  let conf := confidence_from_matches matched.length
  let conf :=
    if phrase_in_text text (pyNormalize skill.name) then min max_confidence (conf + 0.10)
    else conf
  (min max_confidence conf,
   ⟨skill.id, pySortStrs matched, matched.length⟩)

/-- The `synonym_phrases or DEFAULT_SYNONYMS` line: a missing or falsy (empty)
dict falls back to DEFAULT_SYNONYMS. -/
def effective_synonyms (synonym_phrases : Option (List (String × List String))) :
    List (String × List String) :=
  match synonym_phrases with
  | none => DEFAULT_SYNONYMS
  | some d => if d.isEmpty then DEFAULT_SYNONYMS else d

/-- extract_skill_coverage from extract.py. -/
def extract_skill_coverage (user_text : String) (skill_map : SkillMap)
    (synonym_phrases : Option (List (String × List String))) (max_confidence : ℚ) :
    ExtractionResult :=
  let syns := effective_synonyms synonym_phrases
  let text := pyNormalize user_text
  let acc :=
    (dvalues skill_map.skills_by_id).foldl
      (fun (acc : List (String × ℚ) × List (String × SkillEvidence)) skill =>
        let r := extract_one text syns max_confidence skill
        (dset acc.1 skill.id r.1, dset acc.2 skill.id r.2))
      ([], [])
  ⟨acc.1, acc.2⟩

/-! ### Readiness scorer (score.py) -/

structure Gap where
  skill_id : String
  skill_name : String
  category : String
  weight : Int
  coverage : ℚ
  gap : ℚ
  prereqs_missing : List String
deriving DecidableEq

structure ScoreReport where
  role : String
  version : String
  readiness_overall : ℚ
  readiness_by_category : List (String × ℚ)
  coverage_by_skill : List (String × ℚ)
  top_gaps : List Gap
deriving DecidableEq

/-- Python str.lower over a whole string (ASCII model). -/
def lowerStr (s : String) : String :=
  String.mk (s.data.map pyLower)

/-- _gap_priority: the sort key (negated impact, negated weight, negated gap,
lowercased name), packed into a lexicographic order. -/
def gapKey (g : Gap) : Lex (ℚ × Lex (ℚ × Lex (ℚ × List Char))) :=
  toLex (-(g.gap * (g.weight : ℚ)),
    toLex (-((g.weight : ℚ)),
      toLex (-g.gap, (lowerStr g.skill_name).data)))

/-- The non-strict comparison Python's stable sort effectively orders by. -/
def gapLeB (g1 g2 : Gap) : Bool :=
  decide (gapKey g1 ≤ gapKey g2)

/-- The prereq scan inside _compute_gaps: missing prereq ids in order, and the
accumulated gap factor. -/
def prereq_scan (coverage_by_skill : List (String × ℚ)) (prereqs : List String) :
    List String × ℚ :=
  prereqs.foldl
    (fun acc pre_id =>
      let pre_cov := clamp01 (dgetD coverage_by_skill pre_id 0)
      if pre_cov < 0.55 then (acc.1 ++ [pre_id], acc.2 + (0.55 - pre_cov) / 0.55)
      else acc)
    ([], 0)

/-- The Gap record _compute_gaps builds for one skill. -/
def compute_gap_one (coverage_by_skill : List (String × ℚ)) (prereq_penalty : ℚ)
    (skill : Skill) : Gap :=
  let c := clamp01 (dgetD coverage_by_skill skill.id 0)
  let gap := 1 - c
  let scan := prereq_scan coverage_by_skill skill.prereqs
  let gap :=
    if scan.1 ≠ [] then min 1 (gap + prereq_penalty * min 1 scan.2) else gap
  ⟨skill.id, skill.name, skill.category, skill.weight, c, clamp01 gap, scan.1⟩

/-- _compute_gaps from score.py. -/
def compute_gaps (skill_map : SkillMap) (coverage_by_skill : List (String × ℚ))
    (prereq_penalty : ℚ) : List Gap :=
  (dvalues skill_map.skills_by_id).map (compute_gap_one coverage_by_skill prereq_penalty)

/-- The weighted coverage mean over a list of skills (0 when total weight is 0). -/
def weighted_mean (skills : List Skill) (coverage_by_skill : List (String × ℚ)) : ℚ :=
  let tw := (skills.map (fun s => ((s.weight : ℚ)))).sum
  let tt := (skills.map (fun s => (s.weight : ℚ) * clamp01 (dgetD coverage_by_skill s.id 0))).sum
  if tw > 0 then tt / tw else 0

/-- score_readiness from score.py. -/
def score_readiness (skill_map : SkillMap) (extraction : ExtractionResult)
    (top_k_gaps : Nat) (prereq_penalty : ℚ) : ScoreReport :=
  let coverage_by_skill := extraction.coverage_by_skill
  let readiness_overall := weighted_mean (dvalues skill_map.skills_by_id) coverage_by_skill
  let readiness_by_cat :=
    skill_map.categories.foldl
      (fun d cat =>
        let skills := (dvalues skill_map.skills_by_id).filter (fun s => s.category = cat)
        dset d cat (weighted_mean skills coverage_by_skill))
      []
  let gaps := compute_gaps skill_map coverage_by_skill prereq_penalty
  let gaps := gaps.mergeSort gapLeB
  let top_gaps := gaps.take top_k_gaps
  { role := skill_map.role
    version := skill_map.version
    readiness_overall := clamp01 readiness_overall
    readiness_by_category := readiness_by_cat.map (fun p => (p.1, clamp01 p.2))
    coverage_by_skill := coverage_by_skill.map (fun p => (p.1, clamp01 p.2))
    top_gaps := top_gaps }

/-! ### Mastery, feedback and the day planner (planner.py) -/

inductive TaskType
  | learn
  | practice
  | explain
  | review
deriving DecidableEq

inductive Status
  | done
  | skipped
deriving DecidableEq

inductive Difficulty
  | easy
  | ok
  | hard
deriving DecidableEq

structure TaskFeedback where
  status : Status
  difficulty : Difficulty
  confidence : Int
deriving DecidableEq

structure PlanItem where
  day : Int
  order : Int
  skill_id : String
  skill_name : String
  category : String
  task_type : TaskType
  minutes : Int
  resource_title : String
  resource_url : String
  resource_type : String
  credibility : String
  success_check : String
deriving DecidableEq

structure DayPlan where
  day : Int
  total_minutes : Int
  items : List PlanItem
  notes : List String
deriving DecidableEq

/-- init_mastery_from_report: clamped coverage copied as initial mastery. -/
def init_mastery_from_report (report : ScoreReport) : List (String × ℚ) :=
  report.coverage_by_skill.map (fun p => (p.1, clamp01 p.2))

/-- _dedupe: drop repeats, keeping first occurrences. -/
def dedupe (items : List String) : List String :=
  items.foldl (fun out x => if out.contains x then out else out ++ [x]) []

/-- One iteration of the apply_day_feedback loop, over the running
(new_mastery, reinforce, retry) state. -/
def feedback_step (easy_delta ok_delta hard_delta : ℚ)
    (acc : List (String × ℚ) × List String × List String)
    (entry : String × TaskFeedback) :
    List (String × ℚ) × List String × List String :=
  let (new_mastery, reinforce, retry) := acc
  let (sid, fb) := entry
  let m := clamp01 (dgetD new_mastery sid 0.05)
  match fb.status with
  | .skipped => (new_mastery, reinforce, retry ++ [sid])
  | .done =>
    let step1 : ℚ × List String :=
      match fb.difficulty with
      | .easy => (min 1 (m + easy_delta), reinforce)
      | .ok => (min 1 (m + ok_delta), reinforce)
      | .hard => (min 1 (m + hard_delta), reinforce ++ [sid])
    let step2 : ℚ × List String :=
      if fb.confidence ≤ 2 then (step1.1, step1.2 ++ [sid])
      else if 5 ≤ fb.confidence then (min 1 (step1.1 + 0.02), step1.2)
      else step1
    (dset new_mastery sid (clamp01 step2.1), step2.2, retry)

/-- apply_day_feedback from planner.py. -/
def apply_day_feedback (mastery_by_skill : List (String × ℚ))
    (feedback_by_skill : List (String × TaskFeedback))
    (easy_delta ok_delta hard_delta : ℚ) :
    List (String × ℚ) × List String × List String :=
  let st := feedback_by_skill.foldl (feedback_step easy_delta ok_delta hard_delta)
    (mastery_by_skill, [], [])
  (st.1, dedupe st.2.1, dedupe st.2.2)

/-- Python's round on an exact value: nearest integer, halves to even. -/
def py_round (q : ℚ) : Int :=
  let f := ⌊q⌋
  let r := q - f
  if r < 1/2 then f
  else if 1/2 < r then f + 1
  else if f % 2 = 0 then f else f + 1

/-- The cred_rank dict inside choose_resource. -/
def CRED_RANK : List (String × Int) :=
  [("interview-safe", 0), ("good-intuition", 1), ("misleading", 2)]

/-- The rank key inside choose_resource: credibility rank then per-task type rank. -/
def resource_rank (task_type : TaskType) (res : Resource) : Lex (Int × Int) :=
  let type_rank : Int :=
    match task_type with
    | .learn =>
      if res.type = "youtube" then 0
      else if res.type = "docs" || res.type = "blog" then 1
      else 2
    | .practice => if res.type = "docs" || res.type = "blog" then 0 else 1
    | _ => 0
  toLex (dgetD CRED_RANK res.credibility 9, type_rank)

/-- choose_resource from planner.py. The rng is a deterministic draw stream
(rngF) with a running counter; one draw picks among the best two. -/
def choose_resource (rngF : Nat → Nat) (skill : Skill) (task_type : TaskType)
    (ctr : Nat) : Resource × Nat :=
  let resources := skill.resources
  if resources.isEmpty then
    (⟨skill.name ++ " (no resource yet)", "text", "good-intuition",
      "Placeholder resource.", ""⟩, ctr)
  else
    let ranked := resources.mergeSort
      (fun r1 r2 => decide (resource_rank task_type r1 ≤ resource_rank task_type r2))
    let top := if 2 ≤ ranked.length then ranked.take 2 else ranked
    (top.getD (rngF ctr % top.length) ⟨"", "", "", "", ""⟩, ctr + 1)

/-- The running builder state of generate_day_plan: the items list with the
order counter, the consumed minutes, and the rng draw counter. -/
structure PlanState where
  items : List PlanItem
  order : Int
  used_minutes : Int
  rng : Nat
deriving DecidableEq

/-- add_task from generate_day_plan: skip non-positive requests, trim to the
remaining daily budget, skip when nothing remains, else emit the item. -/
def add_task (M : Int) (day : Int) (rngF : Nat → Nat) (st : PlanState)
    (skill : Skill) (task_type : TaskType) (minutes : Int) (success_check : String) :
    PlanState :=
  if minutes ≤ 0 then st
  else
    let minutes := if M < st.used_minutes + minutes then max 0 (M - st.used_minutes) else minutes
    if minutes ≤ 0 then st
    else
      let choice := choose_resource rngF skill task_type st.rng
      { items := st.items ++ [⟨day, st.order, skill.id, skill.name, skill.category,
          task_type, minutes, choice.1.title, choice.1.url, choice.1.type,
          choice.1.credibility, success_check⟩]
        order := st.order + 1
        used_minutes := st.used_minutes + minutes
        rng := choice.2 }

/-- _learn_check. -/
def learn_check (skill : Skill) : String :=
  "Success: summarize " ++ skill.name ++ " in 3 bullets (focus on interview wording)."

/-- _practice_check. -/
def practice_check (skill : Skill) : String :=
  match skill.assessment with
  | [] => "Practice: solve 2 quick questions and rate confidence."
  | q :: _ => "Practice: answer: “" ++ q ++ "”"

/-- _explain_check. -/
def explain_check (skill : Skill) : String :=
  "Explain: teach " ++ skill.name ++ " as if to a friend (5 sentences max)."

/-- _rank_gaps_by_mastery: rebuild gaps from mastery and sort by the same
priority tuple as the scorer. -/
def rank_gaps_by_mastery (skill_map : SkillMap) (mastery_by_skill : List (String × ℚ)) :
    List Gap :=
  let gaps := (dvalues skill_map.skills_by_id).map (fun s =>
    let c := clamp01 (dgetD mastery_by_skill s.id 0.05)
    ({ skill_id := s.id
       skill_name := s.name
       category := s.category
       weight := s.weight
       coverage := c
       gap := 1 - c
       prereqs_missing := s.prereqs.filter (fun p => dgetD mastery_by_skill p 0.05 < 0.55) } : Gap))
  gaps.mergeSort gapLeB

/-- _pick_focus_skills: stable-sort candidates by mastery ascending, take up to
max_focus of them, skipping mastery at or above 0.80. -/
def pick_focus_skills (candidate_ids : List String)
    (mastery_by_skill : List (String × ℚ)) (max_focus : Nat) : List String :=
  let scored := candidate_ids.map (fun sid => (dgetD mastery_by_skill sid 0.05, sid))
  let scored := scored.mergeSort (fun a b => decide (a.1 ≤ b.1))
  scored.foldl
    (fun focus p =>
      if max_focus ≤ focus.length then focus
      else if 0.80 ≤ p.1 then focus
      else focus ++ [p.2])
    []

/-- _pick_review_skill: among non-excluded skills with mastery in the 0.55..0.80
band, the one closest to 0.68 (stable sort, first wins). -/
def pick_review_skill (skill_map : SkillMap) (mastery_by_skill : List (String × ℚ))
    (exclude : List String) : Option String :=
  let candidates := (dkeys skill_map.skills_by_id).filterMap (fun sid =>
    if exclude.contains sid then none
    else
      let m := dgetD mastery_by_skill sid 0.05
      if 0.55 ≤ m ∧ m ≤ 0.80 then some (|m - 0.68|, sid) else none)
  match candidates.mergeSort (fun a b => decide (a.1 ≤ b.1)) with
  | [] => none
  | c :: _ => some c.2

/-- Step 4a of generate_day_plan: one retry block (skipped when the id is not
in the catalog). -/
def retry_step (skill_map : SkillMap) (M : Int) (day : Int) (rngF : Nat → Nat)
    (st : PlanState) (sid : String) : PlanState :=
  match dget? skill_map.skills_by_id sid with
  | none => st
  | some s =>
    add_task M day rngF st s .learn 15 "Finish this short retry and write 3 bullet takeaways."

/-- Step 4b of generate_day_plan: one reinforcement block. -/
def reinforce_step (skill_map : SkillMap) (M : Int) (day : Int) (rngF : Nat → Nat)
    (st : PlanState) (sid : String) : PlanState :=
  match dget? skill_map.skills_by_id sid with
  | none => st
  | some s => add_task M day rngF st s .practice 15 (practice_check s)

/-- The running state of the focus loop: builder state, the three remaining
bucket budgets, and the notes list. -/
structure FocusState where
  st : PlanState
  learn_budget : Int
  practice_budget : Int
  explain_budget : Int
  notes : List String
deriving DecidableEq

/-- The prereq-primer block at the top of step 4c: when the focus skill has a
prereq with mastery below 0.55, a 15-minute review primer for the first such
prereq plus a note. -/
def focus_primer (skill_map : SkillMap) (mastery_by_skill : List (String × ℚ))
    (M : Int) (day : Int) (rngF : Nat → Nat) (fs : FocusState) (s : Skill) :
    FocusState :=
  match s.prereqs.filter (fun p => dgetD mastery_by_skill p 0.05 < 0.55) with
  | [] => fs
  | p0 :: _ =>
    match dget? skill_map.skills_by_id p0 with
    | none => fs
    | some pre =>
      { fs with
        st := add_task M day rngF fs.st pre .review 15
          ("Quick primer: explain " ++ pre.name ++ " in 2–3 sentences.")
        notes := fs.notes ++ ["Added prerequisite primer before '" ++ s.name ++ "'."] }

/-- Step 4c of generate_day_plan for one focus skill: optional prereq primer
plus note, then learn, practice and explain blocks against the bucket budgets. -/
def focus_step (skill_map : SkillMap) (mastery_by_skill : List (String × ℚ))
    (M : Int) (day : Int) (rngF : Nat → Nat) (fs : FocusState) (sid : String) :
    FocusState :=
  match dget? skill_map.skills_by_id sid with
  | none => fs
  | some s =>
    let fs := focus_primer skill_map mastery_by_skill M day rngF fs s
    let learn_minutes : Int := if 90 ≤ M then 20 else 15
    let fs :=
      { fs with
        st := add_task M day rngF fs.st s .learn (min learn_minutes fs.learn_budget)
          (learn_check s)
        learn_budget := fs.learn_budget - min learn_minutes fs.learn_budget }
    let practice_minutes : Int := if 120 ≤ M then 25 else 20
    let fs :=
      { fs with
        st := add_task M day rngF fs.st s .practice (min practice_minutes fs.practice_budget)
          (practice_check s)
        practice_budget := fs.practice_budget - min practice_minutes fs.practice_budget }
    { fs with
      st := add_task M day rngF fs.st s .explain (min 10 fs.explain_budget)
        (explain_check s)
      explain_budget := fs.explain_budget - min 10 fs.explain_budget }

/-- Step 4d of generate_day_plan: the single review task, only when time remains. -/
def review_phase (skill_map : SkillMap) (M : Int) (day : Int) (rngF : Nat → Nat)
    (review_id : Option String) (st : PlanState) : PlanState :=
  match review_id with
  | none => st
  | some rid =>
    if dmem skill_map.skills_by_id rid && decide (st.used_minutes < M) then
      match dget? skill_map.skills_by_id rid with
      | none => st
      | some s =>
        add_task M day rngF st s .review (min 15 (M - st.used_minutes))
          "Review: write a tiny cheat-sheet (5 bullets)."
    else st

/-- Step 4e of generate_day_plan: when time remains, one bounded practice task
for the first ranked gap not already scheduled. The unguarded dict access of
the source is the one lookup that can fail. -/
def overflow_phase (skill_map : SkillMap) (gap_ranked : List Gap) (M : Int)
    (day : Int) (rngF : Nat → Nat) (st : PlanState) : Option PlanState :=
  if st.used_minutes < M then
    match gap_ranked.find? (fun g => !((st.items.map PlanItem.skill_id).contains g.skill_id)) with
    | none => some st
    | some g =>
      match dget? skill_map.skills_by_id g.skill_id with
      | none => none
      | some s =>
        some (add_task M day rngF st s .practice (min (M - st.used_minutes) 15)
          (practice_check s))
  else some st

/-- The candidate pool of generate_day_plan: retries, then reinforcements,
then the top ranked gaps, deduplicated and restricted to catalog ids. -/
def gdp_candidates (skill_map : SkillMap) (gap_ranked : List Gap)
    (reinforce_skills retry_skills : List String) (top_gap_pool : Nat) : List String :=
  dedupe
    ((retry_skills ++ reinforce_skills ++ (gap_ranked.take top_gap_pool).map Gap.skill_id).filter
      (fun sid => dmem skill_map.skills_by_id sid))

/-- The opening notes of generate_day_plan: the retry note then the
reinforcement note, each only when its queue is non-empty. -/
def gdp_notes (reinforce_skills retry_skills : List String) : List String :=
  (if retry_skills.isEmpty then [] else
    ["You skipped some items yesterday — today starts with smaller retries."]) ++
  (if reinforce_skills.isEmpty then [] else
    ["Some topics felt hard — today includes quick reinforcement blocks."])

/-- Steps 3 to 9 of generate_day_plan: budgets, the four emission phases, the
closing note and the DayPlan record. -/
def gdp_emit (rngF : Nat → Nat) (day : Int) (skill_map : SkillMap)
    (mastery_by_skill : List (String × ℚ)) (M : Int) (gap_ranked : List Gap)
    (notes : List String) (focus_ids : List String) (review_id : Option String)
    (reinforce_skills retry_skills : List String) : Option DayPlan :=
  let learn_budget := py_round ((M : ℚ) * 0.45)
  let practice_budget := py_round ((M : ℚ) * 0.45)
  let explain_budget := M - learn_budget - practice_budget
  let st0 : PlanState := ⟨[], 1, 0, 0⟩
  let st := (retry_skills.take 2).foldl (retry_step skill_map M day rngF) st0
  let st := (reinforce_skills.take 2).foldl (reinforce_step skill_map M day rngF) st
  let fs := focus_ids.foldl (focus_step skill_map mastery_by_skill M day rngF)
    ⟨st, learn_budget, practice_budget, explain_budget, notes⟩
  let st := review_phase skill_map M day rngF review_id fs.st
  match overflow_phase skill_map gap_ranked M day rngF st with
  | none => none
  | some st =>
    some ⟨day, min M st.used_minutes, st.items,
      fs.notes ++
        [if st.items.isEmpty then "No tasks were generated — check your skill map and inputs."
         else "Tip: mark tasks as done + difficulty — tomorrow’s plan adapts automatically."]⟩

/-- generate_day_plan from planner.py, with the seeded rng already built into
the draw stream rngF. The report argument is accepted and, as in the source,
never read. Returns none exactly where the source raises. -/
def generate_day_plan_with (rngF : Nat → Nat) (day : Int) (report : ScoreReport)
    (skill_map : SkillMap) (mastery_by_skill : List (String × ℚ))
    (minutes_per_day : Int) (reinforce_skills retry_skills : List String)
    (top_gap_pool : Nat) : Option DayPlan :=
  let M := max 30 minutes_per_day
  let gap_ranked := rank_gaps_by_mastery skill_map mastery_by_skill
  let candidate_ids := gdp_candidates skill_map gap_ranked reinforce_skills retry_skills
    top_gap_pool
  let notes := gdp_notes reinforce_skills retry_skills
  let focus_ids := pick_focus_skills candidate_ids mastery_by_skill 2
  let review_id := pick_review_skill skill_map mastery_by_skill focus_ids
  -- The source's fallback branch binds a variable `chosen` that is read
  -- nowhere afterwards; its only observable effect is the ValueError that
  -- Python's min raises on an empty catalog.
  if focus_ids.isEmpty && review_id.isNone && skill_map.skills_by_id.isEmpty then none
  else gdp_emit rngF day skill_map mastery_by_skill M gap_ranked notes focus_ids review_id
    reinforce_skills retry_skills

/-- generate_day_plan with the rng modelled as an abstract deterministic
generator construction: rng_model stands for random.Random, applied to
seed + day exactly as the source does. -/
def generate_day_plan (rng_model : Int → Nat → Nat) (day : Int) (report : ScoreReport)
    (skill_map : SkillMap) (mastery_by_skill : List (String × ℚ))
    (minutes_per_day : Int) (reinforce_skills retry_skills : List String)
    (seed : Int) (top_gap_pool : Nat) : Option DayPlan :=
  generate_day_plan_with (rng_model (seed + day)) day report skill_map mastery_by_skill
    minutes_per_day reinforce_skills retry_skills top_gap_pool

/-- The Python min over catalog keys keyed by mastery that the dead fallback
branch evaluates: the first key of globally lowest mastery, none on an empty
catalog. -/
def py_min_by (l : List String) (f : String → ℚ) : Option String :=
  match l with
  | [] => none
  | x :: xs => some (xs.foldl (fun best y => if f y < f best then y else best) x)

/-! ### Spec-side formulas (stated from the specification's words, to be
compared with the code-side definitions above) -/

/-- The spec's confidence step table on the count of distinct matched phrases:
0 to 0.05, 1 to 0.35, 2 to 0.55, 3 to 0.70, 4 to 0.82, five or more to 0.90. -/
def spec_step_confidence (n : Nat) : ℚ :=
  if n = 0 then 0.05
  else if n = 1 then 0.35
  else if n = 2 then 0.55
  else if n = 3 then 0.70
  else if n = 4 then 0.82
  else 0.90

/-- The spec's confidence formula: the step value, plus 0.10 exactly once when
the skill's normalized name occurs as a bounded phrase, the whole capped at
max_confidence. -/
def spec_confidence (max_confidence : ℚ) (n : Nat) (name_hit : Bool) : ℚ :=
  min max_confidence (spec_step_confidence n + if name_hit then 0.10 else 0)

/-- The count of distinct matched phrases for one skill. -/
def distinct_match_count (user_text : String) (skill : Skill)
    (syns : List (String × List String)) : Nat :=
  (find_matches (pyNormalize user_text) (skill_phrases skill syns)).length

/-- Whether the skill's own normalized name occurs as a bounded phrase. -/
def name_mentioned (user_text : String) (skill : Skill) : Bool :=
  phrase_in_text (pyNormalize user_text) (pyNormalize skill.name)

/-- The spec's per-prereq shakiness term, clamped to the unit interval. -/
def spec_prereq_term (coverage_by_skill : List (String × ℚ)) (pre_id : String) : ℚ :=
  clamp01 ((0.55 - clamp01 (dgetD coverage_by_skill pre_id 0)) / 0.55)

/-- The spec's missing-prereq list: prereqs whose coverage is below 0.55. -/
def spec_missing (coverage_by_skill : List (String × ℚ)) (prereqs : List String) :
    List String :=
  prereqs.filter (fun p => clamp01 (dgetD coverage_by_skill p 0) < 0.55)

/-- The spec's gap formula: 1 minus coverage, plus, when some prereq is below
0.55, the penalty times the clamped sum of per-prereq terms, capped at 1. -/
def spec_gap (coverage_by_skill : List (String × ℚ)) (prereq_penalty : ℚ)
    (skill : Skill) : ℚ :=
  let c := clamp01 (dgetD coverage_by_skill skill.id 0)
  let base := 1 - c
  if spec_missing coverage_by_skill skill.prereqs ≠ [] then
    min 1 (base + prereq_penalty *
      min 1 (((spec_missing coverage_by_skill skill.prereqs).map
        (spec_prereq_term coverage_by_skill)).sum))
  else base

/-- The spec's Gap record for one skill. -/
def spec_gap_record (coverage_by_skill : List (String × ℚ)) (prereq_penalty : ℚ)
    (skill : Skill) : Gap :=
  { skill_id := skill.id
    skill_name := skill.name
    category := skill.category
    weight := skill.weight
    coverage := clamp01 (dgetD coverage_by_skill skill.id 0)
    gap := spec_gap coverage_by_skill prereq_penalty skill
    prereqs_missing := spec_missing coverage_by_skill skill.prereqs }

/-- The spec's ranking relation on gaps: impact (gap times weight) descending,
ties by weight descending, then raw gap descending, then lowercased skill name
ascending. -/
def GapPriorityLE (g1 g2 : Gap) : Prop :=
  g2.gap * (g2.weight : ℚ) < g1.gap * (g1.weight : ℚ) ∨
    (g1.gap * (g1.weight : ℚ) = g2.gap * (g2.weight : ℚ) ∧
      (g2.weight < g1.weight ∨
        (g1.weight = g2.weight ∧
          (g2.gap < g1.gap ∨
            (g1.gap = g2.gap ∧
              (lowerStr g1.skill_name).data ≤ (lowerStr g2.skill_name).data)))))

/-- The planner's builder invariant: consumed minutes equal the summed item
minutes, stay within the effective daily budget, and every item is positive. -/
def PlanInv (M : Int) (st : PlanState) : Prop :=
  st.used_minutes = (st.items.map PlanItem.minutes).sum ∧
    st.used_minutes ≤ M ∧
    ∀ it ∈ st.items, 0 < it.minutes

/-! ### Concrete inputs used by the per-claim evaluations -/

/-- A skill with no assessment and no resources, in the single category. -/
def mkSkill (sid nm : String) (w : Int) (kw pr : List String) : Skill :=
  ⟨sid, nm, w, kw, pr, [], [], "Core"⟩

/-- A draw stream model that always answers 0 (never consulted in the concrete
runs below, whose skills carry no resources). -/
def rngZero : Int → Nat → Nat := fun _ _ => 0

/-- A score report; generate_day_plan never reads it. -/
def emptyReport : ScoreReport := ⟨"Role", "1", 0, [], [], []⟩

/-- Catalog for the fallback run: two strong skills, one heavy and one light. -/
def fallbackMap : SkillMap :=
  ⟨"Role", "1", ["Core"],
   [("skill_a", mkSkill "skill_a" "Skill A" 5 [] []),
    ("skill_b", mkSkill "skill_b" "Skill B" 1 [] [])]⟩

/-- Mastery for the fallback run: both at or above 0.80, skill_b lowest. -/
def fallbackMastery : List (String × ℚ) := [("skill_a", 0.85), ("skill_b", 0.82)]

/-- The fallback-run plan (day 1, default budget, empty queues). -/
def fallbackPlan : Option DayPlan :=
  generate_day_plan rngZero 1 emptyReport fallbackMap fallbackMastery 120 [] [] 7 8

/-- Catalog for the small-budget run: one weak skill. -/
def tinyBudgetMap : SkillMap :=
  ⟨"Role", "1", ["Core"], [("a", mkSkill "a" "Skill A" 5 [] [])]⟩

/-- Mastery for the small-budget run. -/
def tinyBudgetMastery : List (String × ℚ) := [("a", 0.05)]

/-- The plan produced when the caller requests only 10 minutes. -/
def tinyBudgetPlan : Option DayPlan :=
  generate_day_plan rngZero 1 emptyReport tinyBudgetMap tinyBudgetMastery 10 [] [] 7 8

/-- Catalog for the extraction run: one skill with keywords precision and
recall, name Metrics. -/
def metricsMap : SkillMap :=
  ⟨"Role", "1", ["Core"],
   [("metrics", mkSkill "metrics" "Metrics" 5 ["precision", "recall"] [])]⟩

/-- The extraction run on the sample sentence, with default synonyms and cap. -/
def metricsExtraction : ExtractionResult :=
  extract_skill_coverage "Used precision and recall for evaluation." metricsMap none 0.95

/-- Catalog for the prereq-penalty run: ml_basics and cv_leakage depending on it. -/
def leakageMap : SkillMap :=
  ⟨"Role", "1", ["Core"],
   [("ml_basics", mkSkill "ml_basics" "ML Basics" 5 [] []),
    ("cv_leakage", mkSkill "cv_leakage" "CV and Leakage" 4 [] ["ml_basics"])]⟩

/-- Coverage for the prereq-penalty run: the prereq sits at 0.30. -/
def leakageCoverage : List (String × ℚ) := [("ml_basics", 0.30), ("cv_leakage", 0.05)]

/-- The gap record the scorer computes for cv_leakage in that run. -/
def leakageGap : Option Gap :=
  (compute_gaps leakageMap leakageCoverage 0.10).find? (fun g => g.skill_id = "cv_leakage")

/-! ### Helper lemmas -/

theorem foldl_preserves {σ α : Type _} {P : σ → Prop} {f : σ → α → σ}
    (h : ∀ s a, P s → P (f s a)) : ∀ (l : List α) (s : σ), P s → P (l.foldl f s)
  | [], _, hs => hs
  | a :: l, s, hs => foldl_preserves h l (f s a) (h s a hs)

theorem dget?_cons {α : Type} (p : String × α) (d : List (String × α)) (k : String) :
    dget? (p :: d) k = if p.1 = k then some p.2 else dget? d k := by
  by_cases h : p.1 = k <;> simp [dget?, List.find?, h]

theorem dkeys_cons {α : Type} (p : String × α) (d : List (String × α)) :
    dkeys (p :: d) = p.1 :: dkeys d := rfl

theorem dget?_overwrite {α : Type} (d : List (String × α)) (k sid : String) (v : α)
    (h : k ≠ sid) :
    dget? (d.map (fun p => if p.1 = k then (k, v) else p)) sid = dget? d sid := by
  induction d with
  | nil => rfl
  | cons p d ih =>
    by_cases hp : p.1 = k
    · have hmap : List.map (fun q => if q.1 = k then (k, v) else q) (p :: d)
          = (k, v) :: List.map (fun q => if q.1 = k then (k, v) else q) d := by
        simp [hp]
      have h2 : ¬ (p.1 = sid) := by rw [hp]; exact h
      rw [hmap, dget?_cons, dget?_cons, if_neg (show ¬ ((k, v).1 = sid) from h),
        if_neg h2, ih]
    · have hmap : List.map (fun q => if q.1 = k then (k, v) else q) (p :: d)
          = p :: List.map (fun q => if q.1 = k then (k, v) else q) d := by
        simp [hp]
      rw [hmap, dget?_cons, dget?_cons, ih]

theorem dget?_append_one {α : Type} (d : List (String × α)) (k sid : String) (v : α)
    (h : k ≠ sid) :
    dget? (d ++ [(k, v)]) sid = dget? d sid := by
  induction d with
  | nil => simp [dget?_cons, h, dget?]
  | cons p d ih => by_cases hs : p.1 = sid <;> simp [dget?_cons, hs, ih]

theorem dget?_dset_ne {α : Type} (d : List (String × α)) (k sid : String) (v : α)
    (h : k ≠ sid) : dget? (dset d k v) sid = dget? d sid := by
  unfold dset
  split
  · exact dget?_overwrite d k sid v h
  · exact dget?_append_one d k sid v h

theorem dget?_isSome_iff {α : Type} (d : List (String × α)) (sid : String) :
    (dget? d sid).isSome = true ↔ sid ∈ dkeys d := by
  induction d with
  | nil => simp [dget?, dkeys]
  | cons p d ih =>
    rw [dget?_cons, dkeys_cons]
    by_cases h : p.1 = sid
    · simp [h]
    · rw [if_neg h, ih]
      constructor
      · exact fun hm => List.mem_cons_of_mem _ hm
      · intro hm
        rcases List.mem_cons.mp hm with he | hm
        · exact absurd he.symm h
        · exact hm

theorem dget?_mem {α : Type} {d : List (String × α)} {k : String} {v : α}
    (h : dget? d k = some v) : (k, v) ∈ d := by
  induction d with
  | nil => simp [dget?] at h
  | cons p d ih =>
    rw [dget?_cons] at h
    by_cases hp : p.1 = k
    · rw [if_pos hp] at h
      have hv : p.2 = v := Option.some.inj h
      have hpk : p = (k, v) := Prod.ext hp hv
      rw [← hpk]
      exact List.mem_cons_self p d
    · rw [if_neg hp] at h
      exact List.mem_cons_of_mem _ (ih h)

theorem values_id_eq_keys {d : List (String × Skill)}
    (hid : ∀ p ∈ d, (p.2).id = p.1) : (dvalues d).map Skill.id = dkeys d := by
  unfold dvalues dkeys
  rw [List.map_map]
  exact List.map_congr_left hid

theorem dget?_isSome_of_value_mem {d : List (String × Skill)}
    (hid : ∀ p ∈ d, (p.2).id = p.1) {s : Skill} (hs : s ∈ dvalues d) :
    (dget? d s.id).isSome = true := by
  rw [dget?_isSome_iff]
  rw [← values_id_eq_keys hid]
  exact List.mem_map_of_mem Skill.id hs

theorem clamp01_nonneg (x : ℚ) : 0 ≤ clamp01 x := by
  unfold clamp01; split_ifs <;> linarith

theorem clamp01_le_one (x : ℚ) : clamp01 x ≤ 1 := by
  unfold clamp01; split_ifs <;> linarith

theorem clamp01_eq_self {x : ℚ} (h0 : 0 ≤ x) (h1 : x ≤ 1) : clamp01 x = x := by
  unfold clamp01; split_ifs <;> linarith

/-! ### The claims -/

/-- C1: the spec says that when no focus skill and no review skill qualify,
generate_day_plan falls back to the single globally lowest-mastery catalog
skill and the emitted DayPlan contains a task for it. The code computes that
skill into a variable the rest of the function never reads, so the plan below
(where the selections are provably empty) schedules only the top-impact skill
skill_a and contains no task for the lowest-mastery skill skill_b: the spec
states the evident intent and the code drops it. -/
theorem c1_fallback_skill_never_scheduled :
    (pick_focus_skills ["skill_a", "skill_b"] fallbackMastery 2 = []) ∧
    (pick_review_skill fallbackMap fallbackMastery [] = none) ∧
    (py_min_by (dkeys fallbackMap.skills_by_id) (fun sid => dgetD fallbackMastery sid 0.05)
      = some "skill_b") ∧
    (fallbackPlan.map (fun p => p.items.map PlanItem.skill_id) = some ["skill_a"]) ∧
    (fallbackPlan.map (fun p => p.items.any (fun it => it.skill_id = "skill_b")) = some false) := by
  with_unfolding_all decide

/-- C2 counterexample: requesting fewer than 30 minutes per day falsifies the
claim as stated: at minutes_per_day = 10 the generated plan's items sum to 30
minutes and total_minutes is 30, which exceeds the request and differs from
min(minutes_per_day, minutes consumed) = 10. -/
theorem c2_small_request_overshoots :
    (tinyBudgetPlan.map DayPlan.total_minutes = some 30) ∧
    (tinyBudgetPlan.map (fun p => (p.items.map PlanItem.minutes).sum) = some 30) ∧
    ¬ ((30 : Int) ≤ 10) ∧ (30 : Int) ≠ min 10 30 := by
  with_unfolding_all decide

theorem feedback_step_fst_ne (e o h : ℚ)
    (acc : List (String × ℚ) × List String × List String)
    (entry : String × TaskFeedback) (sid : String) (hne : entry.1 ≠ sid) :
    dget? (feedback_step e o h acc entry).1 sid = dget? acc.1 sid := by
  obtain ⟨nm, rf, rt⟩ := acc
  obtain ⟨k, f⟩ := entry
  obtain ⟨st, df, cf⟩ := f
  cases st with
  | skipped => rfl
  | done =>
    show dget? (dset nm k _) sid = dget? nm sid
    exact dget?_dset_ne nm k sid _ hne

theorem feedback_fold_frame (e o h : ℚ) (sid : String) :
    ∀ (fb : List (String × TaskFeedback))
      (acc : List (String × ℚ) × List String × List String),
      sid ∉ dkeys fb →
      dget? (fb.foldl (feedback_step e o h) acc).1 sid = dget? acc.1 sid
  | [], _, _ => rfl
  | entry :: fb, acc, hmem => by
    have h1 : sid ∉ dkeys fb := fun hx => hmem (List.mem_cons_of_mem _ hx)
    have h2 : entry.1 ≠ sid := by
      intro hx
      exact hmem (by rw [dkeys_cons, ← hx]; exact List.mem_cons_self _ _)
    rw [List.foldl_cons, feedback_fold_frame e o h sid fb _ h1,
      feedback_step_fst_ne e o h acc entry sid h2]

theorem dset_of_any_false {α : Type} (d : List (String × α)) (k : String) (v : α)
    (h : d.any (fun p => p.1 = k) = false) : dset d k v = d ++ [(k, v)] := by
  unfold dset
  rw [if_neg]
  simp [h]

theorem dget?_keyed_map {β : Type} :
    ∀ {skills : List Skill}, (skills.map Skill.id).Nodup →
      ∀ {sk : Skill}, sk ∈ skills → ∀ (f : Skill → β),
      dget? (skills.map (fun s => (s.id, f s))) sk.id = some (f sk) := by
  intro skills
  induction skills with
  | nil => intro _ sk h; cases h
  | cons s rest ih =>
    intro hnd sk hmem f
    rcases List.mem_cons.mp hmem with he | ht
    · rw [he, List.map_cons, dget?_cons, if_pos rfl]
    · by_cases hc : s.id = sk.id
      · exfalso
        have : sk.id ∈ rest.map Skill.id := List.mem_map_of_mem Skill.id ht
        rw [← hc] at this
        exact (List.nodup_cons.mp hnd).1 this
      · rw [List.map_cons, dget?_cons, if_neg hc]
        exact ih (List.nodup_cons.mp hnd).2 ht f

theorem extract_fold_eq (text : String) (syns : List (String × List String)) (maxc : ℚ) :
    ∀ (skills : List Skill) (c0 : List (String × ℚ)) (e0 : List (String × SkillEvidence)),
      (∀ sk ∈ skills, c0.any (fun p => p.1 = sk.id) = false) →
      (∀ sk ∈ skills, e0.any (fun p => p.1 = sk.id) = false) →
      (skills.map Skill.id).Nodup →
      skills.foldl
        (fun (acc : List (String × ℚ) × List (String × SkillEvidence)) skill =>
          let r := extract_one text syns maxc skill
          (dset acc.1 skill.id r.1, dset acc.2 skill.id r.2))
        (c0, e0)
      = (c0 ++ skills.map (fun sk => (sk.id, (extract_one text syns maxc sk).1)),
         e0 ++ skills.map (fun sk => (sk.id, (extract_one text syns maxc sk).2)))
  | [], c0, e0, _, _, _ => by simp
  | sk :: skills, c0, e0, hc, he, hnd => by
    rw [List.foldl_cons]
    have hc0 := hc sk (List.mem_cons_self sk skills)
    have he0 := he sk (List.mem_cons_self sk skills)
    have hid_not : sk.id ∉ skills.map Skill.id := (List.nodup_cons.mp hnd).1
    have step :
        (let r := extract_one text syns maxc sk
         (dset (c0, e0).1 sk.id r.1, dset (c0, e0).2 sk.id r.2))
        = (c0 ++ [(sk.id, (extract_one text syns maxc sk).1)],
           e0 ++ [(sk.id, (extract_one text syns maxc sk).2)]) := by
      show (dset c0 sk.id _, dset e0 sk.id _) = _
      rw [dset_of_any_false c0 sk.id _ hc0, dset_of_any_false e0 sk.id _ he0]
    rw [step]
    have hc' : ∀ s ∈ skills,
        (c0 ++ [(sk.id, (extract_one text syns maxc sk).1)]).any (fun p => p.1 = s.id)
          = false := by
      intro s hs
      rw [List.any_append]
      have h1 := hc s (List.mem_cons_of_mem sk hs)
      have hne : sk.id ≠ s.id := fun hcon =>
        hid_not (hcon ▸ List.mem_map_of_mem Skill.id hs)
      simp [h1, hne]
    have he' : ∀ s ∈ skills,
        (e0 ++ [(sk.id, (extract_one text syns maxc sk).2)]).any (fun p => p.1 = s.id)
          = false := by
      intro s hs
      rw [List.any_append]
      have h1 := he s (List.mem_cons_of_mem sk hs)
      have hne : sk.id ≠ s.id := fun hcon =>
        hid_not (hcon ▸ List.mem_map_of_mem Skill.id hs)
      simp [h1, hne]
    rw [extract_fold_eq text syns maxc skills _ _ hc' he' (List.nodup_cons.mp hnd).2]
    simp [List.append_assoc]

theorem extract_coverage_eq (user_text : String) (skill_map : SkillMap)
    (sp : Option (List (String × List String))) (maxc : ℚ) (hWF : skill_map.WF) :
    (extract_skill_coverage user_text skill_map sp maxc).coverage_by_skill
      = (dvalues skill_map.skills_by_id).map
          (fun sk =>
            (sk.id, (extract_one (pyNormalize user_text) (effective_synonyms sp) maxc sk).1)) := by
  obtain ⟨hnd, hid⟩ := hWF
  have hnd' : ((dvalues skill_map.skills_by_id).map Skill.id).Nodup := by
    rw [values_id_eq_keys hid]; exact hnd
  have hfold := extract_fold_eq (pyNormalize user_text) (effective_synonyms sp) maxc
    (dvalues skill_map.skills_by_id) [] [] (fun _ _ => rfl) (fun _ _ => rfl) hnd'
  have h2 := congrArg Prod.fst hfold
  simp only [List.nil_append] at h2
  exact h2

theorem extract_evidence_eq (user_text : String) (skill_map : SkillMap)
    (sp : Option (List (String × List String))) (maxc : ℚ) (hWF : skill_map.WF) :
    (extract_skill_coverage user_text skill_map sp maxc).evidence_by_skill
      = (dvalues skill_map.skills_by_id).map
          (fun sk =>
            (sk.id, (extract_one (pyNormalize user_text) (effective_synonyms sp) maxc sk).2)) := by
  obtain ⟨hnd, hid⟩ := hWF
  have hnd' : ((dvalues skill_map.skills_by_id).map Skill.id).Nodup := by
    rw [values_id_eq_keys hid]; exact hnd
  have hfold := extract_fold_eq (pyNormalize user_text) (effective_synonyms sp) maxc
    (dvalues skill_map.skills_by_id) [] [] (fun _ _ => rfl) (fun _ _ => rfl) hnd'
  have h2 := congrArg Prod.snd hfold
  simp only [List.nil_append] at h2
  exact h2

theorem step_confidence_eq (n : Nat) : confidence_from_matches n = spec_step_confidence n := rfl

theorem extract_one_conf (t : String) (syns : List (String × List String)) (maxc : ℚ)
    (sk : Skill) :
    (extract_one t syns maxc sk).1
      = spec_confidence maxc (find_matches t (skill_phrases sk syns)).length
          (phrase_in_text t (pyNormalize sk.name)) := by
  unfold extract_one spec_confidence
  cases h : phrase_in_text t (pyNormalize sk.name)
  · simp [h, step_confidence_eq]
  · simp only [h, if_true, ite_true, Bool.true_eq]
    rw [← min_assoc, min_self, step_confidence_eq]

theorem step_confidence_ge (n : Nat) : (0.05 : ℚ) ≤ confidence_from_matches n := by
  unfold confidence_from_matches
  split_ifs <;> norm_num

theorem extract_one_conf_bounds (t : String) (syns : List (String × List String))
    (sk : Skill) :
    0.05 ≤ (extract_one t syns (0.95 : ℚ) sk).1 ∧ (extract_one t syns (0.95 : ℚ) sk).1 ≤ 0.95 := by
  have hge := step_confidence_ge (find_matches t (skill_phrases sk syns)).length
  unfold extract_one
  cases h : phrase_in_text t (pyNormalize sk.name)
  · simp only [h, Bool.false_eq_true, if_false, ite_false]
    exact ⟨le_min (by norm_num) hge, min_le_left _ _⟩
  · simp only [h, if_true, ite_true]
    refine ⟨le_min (by norm_num) (le_min (by norm_num) (by linarith)), min_le_left _ _⟩

/-- C4: on one skill with status done, difficulty hard, confidence 1, mastery
0.50 and hard_delta 0.04, apply_day_feedback returns mastery 0.54 and the
skill appears exactly once in the reinforce list (it was appended by both the
hard path and the low-confidence path and deduplicated); any skill without
feedback keeps its prior mastery. -/
theorem c4_feedback_hard_low_confidence :
    (apply_day_feedback [("s1", 0.50)] [("s1", ⟨.done, .hard, 1⟩)] 0.12 0.08 0.04
        = ([("s1", 0.54)], ["s1"], [])) ∧
    (∀ (mastery_by_skill : List (String × ℚ))
        (feedback_by_skill : List (String × TaskFeedback)) (e o h : ℚ) (sid : String),
      sid ∉ dkeys feedback_by_skill →
      dget? (apply_day_feedback mastery_by_skill feedback_by_skill e o h).1 sid
        = dget? mastery_by_skill sid) := by
  constructor
  · with_unfolding_all decide
  · intro m fb e o h sid hs
    exact feedback_fold_frame e o h sid fb (m, [], []) hs

/-- C4 witness: the frame property applied at a concrete input: skill s2 has
no feedback entry, so its (absent) mastery binding is untouched. -/
theorem c4_feedback_witness :
    ("s2" ∉ dkeys [("s1", (⟨.done, .hard, 1⟩ : TaskFeedback))]) ∧
    dget? (apply_day_feedback [("s1", 0.50)] [("s1", ⟨.done, .hard, 1⟩)] 0.12 0.08 0.04).1 "s2"
      = dget? [("s1", (0.50 : ℚ))] "s2" :=
  ⟨by decide, c4_feedback_hard_low_confidence.2 _ _ _ _ _ _ (by decide)⟩

theorem spec_prereq_term_eq {cov : List (String × ℚ)} {p : String}
    (hp : clamp01 (dgetD cov p 0) < 0.55) :
    spec_prereq_term cov p = (0.55 - clamp01 (dgetD cov p 0)) / 0.55 := by
  unfold spec_prereq_term
  have h0 := clamp01_nonneg (dgetD cov p 0)
  apply clamp01_eq_self
  · apply div_nonneg _ (by norm_num)
    linarith
  · rw [div_le_one (by norm_num)]
    linarith

theorem prereq_scan_foldl (cov : List (String × ℚ)) :
    ∀ (l : List String) (ms : List String) (q : ℚ),
      l.foldl
        (fun acc pre_id =>
          let pre_cov := clamp01 (dgetD cov pre_id 0)
          if pre_cov < 0.55 then (acc.1 ++ [pre_id], acc.2 + (0.55 - pre_cov) / 0.55)
          else acc)
        (ms, q)
      = (ms ++ spec_missing cov l,
         q + ((spec_missing cov l).map
           (fun p => (0.55 - clamp01 (dgetD cov p 0)) / 0.55)).sum)
  | [], ms, q => by simp [spec_missing]
  | p :: l, ms, q => by
    by_cases hp : clamp01 (dgetD cov p 0) < 0.55
    · rw [List.foldl_cons]
      simp only [if_pos hp]
      rw [prereq_scan_foldl cov l (ms ++ [p]) _]
      simp [spec_missing, hp, List.append_assoc, add_assoc]
    · rw [List.foldl_cons]
      simp only [if_neg hp]
      rw [prereq_scan_foldl cov l ms q]
      simp [spec_missing, hp]

theorem prereq_scan_eq (cov : List (String × ℚ)) (l : List String) :
    prereq_scan cov l
      = (spec_missing cov l,
         ((spec_missing cov l).map
           (fun p => (0.55 - clamp01 (dgetD cov p 0)) / 0.55)).sum) := by
  unfold prereq_scan
  rw [prereq_scan_foldl cov l [] 0]
  simp

theorem compute_gap_one_eq_spec (cov : List (String × ℚ)) (pen : ℚ) (sk : Skill)
    (hpen : 0 ≤ pen) : compute_gap_one cov pen sk = spec_gap_record cov pen sk := by
  have hc0 := clamp01_nonneg (dgetD cov sk.id 0)
  have hc1 := clamp01_le_one (dgetD cov sk.id 0)
  unfold compute_gap_one spec_gap_record spec_gap
  rw [prereq_scan_eq]
  by_cases hm : spec_missing cov sk.prereqs = []
  · simp only [hm, ne_eq, not_true_eq_false, if_false, ite_false]
    simp only [Gap.mk.injEq, and_true, true_and, eq_self_iff_true]
    exact clamp01_eq_self (by linarith) (by linarith)
  · have hsum_eq : ((spec_missing cov sk.prereqs).map (spec_prereq_term cov)).sum
        = ((spec_missing cov sk.prereqs).map
            (fun p => (0.55 - clamp01 (dgetD cov p 0)) / 0.55)).sum := by
      congr 1
      apply List.map_congr_left
      intro p hp
      unfold spec_missing at hp
      have hlt : clamp01 (dgetD cov p 0) < 0.55 := by
        have := (List.mem_filter.mp hp).2
        simpa using this
      exact spec_prereq_term_eq hlt
    have hS : (0 : ℚ) ≤ ((spec_missing cov sk.prereqs).map
        (fun p => (0.55 - clamp01 (dgetD cov p 0)) / 0.55)).sum := by
      apply List.sum_nonneg
      intro x hx
      obtain ⟨p, hp, hpx⟩ := List.mem_map.mp hx
      unfold spec_missing at hp
      have hlt : clamp01 (dgetD cov p 0) < 0.55 := by
        have := (List.mem_filter.mp hp).2
        simpa using this
      rw [← hpx]
      apply div_nonneg _ (by norm_num)
      linarith
    simp only [hm, ne_eq, not_false_eq_true, if_true, ite_true]
    simp only [Gap.mk.injEq, and_true, true_and, eq_self_iff_true]
    rw [hsum_eq]
    apply clamp01_eq_self
    · have h1 : (0 : ℚ) ≤ min 1 ((spec_missing cov sk.prereqs).map
          (fun p => (0.55 - clamp01 (dgetD cov p 0)) / 0.55)).sum :=
        le_min (by norm_num) hS
      have h2 : (0 : ℚ) ≤ pen * min 1 ((spec_missing cov sk.prereqs).map
          (fun p => (0.55 - clamp01 (dgetD cov p 0)) / 0.55)).sum :=
        mul_nonneg hpen h1
      exact le_min (by norm_num) (by linarith)
    · exact min_le_left _ _

/-- C6: the scorer computes each skill's gap as 1 minus clamped coverage and,
when at least one prereq sits below 0.55, adds prereq_penalty times the
clamped sum of per-prereq shakiness terms (each term itself in the unit
interval), capped at 1 — exactly the specification's formula; and in the
concrete run, cv_leakage with prereq ml_basics at coverage 0.30 lists
ml_basics as missing and has a gap strictly above 1 minus its coverage, by at
most the penalty 0.10. -/
theorem c6_gap_prereq_penalty :
    (∀ (skill_map : SkillMap) (coverage_by_skill : List (String × ℚ))
        (prereq_penalty : ℚ), 0 ≤ prereq_penalty →
      compute_gaps skill_map coverage_by_skill prereq_penalty
        = (dvalues skill_map.skills_by_id).map
            (spec_gap_record coverage_by_skill prereq_penalty)) ∧
    (leakageGap.map Gap.prereqs_missing = some ["ml_basics"]) ∧
    (leakageGap.map
        (fun g => decide (1 - g.coverage < g.gap ∧ g.gap ≤ 1 - g.coverage + 0.10))
      = some true) := by
  refine ⟨?_, ?_, ?_⟩
  · intro m cov pen hpen
    unfold compute_gaps
    exact List.map_congr_left (fun sk _ => compute_gap_one_eq_spec cov pen sk hpen)
  · with_unfolding_all decide
  · with_unfolding_all decide

/-- C6 witness: the formula equality applied at the concrete leakage catalog
with penalty 0.10. -/
theorem c6_gap_witness :
    ((0 : ℚ) ≤ 0.10) ∧
    compute_gaps leakageMap leakageCoverage 0.10
      = (dvalues leakageMap.skills_by_id).map (spec_gap_record leakageCoverage 0.10) :=
  ⟨by with_unfolding_all decide,
   c6_gap_prereq_penalty.1 leakageMap leakageCoverage 0.10 (by with_unfolding_all decide)⟩

/-- C3: for every text and catalog, each skill's extracted confidence is the
step function of its distinct matched-phrase count plus 0.10 exactly once when
the skill's normalized name occurs as a bounded phrase, the whole capped at
max_confidence; on the sample sentence against the metrics skill (name not
mentioned) the confidence is 0.55 with both phrases matched. -/
theorem c3_confidence_step_formula :
    (∀ (user_text : String) (skill_map : SkillMap)
        (synonym_phrases : Option (List (String × List String))) (max_confidence : ℚ),
      skill_map.WF →
      ∀ (sid : String) (sk : Skill), dget? skill_map.skills_by_id sid = some sk →
      dget? (extract_skill_coverage user_text skill_map synonym_phrases
          max_confidence).coverage_by_skill sid
        = some (spec_confidence max_confidence
            (distinct_match_count user_text sk (effective_synonyms synonym_phrases))
            (name_mentioned user_text sk))) ∧
    (dget? metricsExtraction.coverage_by_skill "metrics" = some 0.55) ∧
    ((dget? metricsExtraction.evidence_by_skill "metrics").map SkillEvidence.matched_phrases
      = some ["precision", "recall"]) := by
  refine ⟨?_, ?_, ?_⟩
  · intro t m sp maxc hWF sid sk hget
    obtain ⟨hnd, hid⟩ := hWF
    have hmem : (sid, sk) ∈ m.skills_by_id := dget?_mem hget
    have hskid : sk.id = sid := hid (sid, sk) hmem
    have hskv : sk ∈ dvalues m.skills_by_id := List.mem_map_of_mem Prod.snd hmem
    have hnd' : ((dvalues m.skills_by_id).map Skill.id).Nodup := by
      rw [values_id_eq_keys hid]; exact hnd
    rw [extract_coverage_eq t m sp maxc ⟨hnd, hid⟩, ← hskid,
      dget?_keyed_map hnd' hskv _, extract_one_conf]
    rfl
  · with_unfolding_all decide
  · with_unfolding_all decide

/-- C3 witness: the formula applied to the metrics catalog and the sample
sentence. -/
theorem c3_confidence_witness :
    metricsMap.WF ∧
    (dget? metricsMap.skills_by_id "metrics"
      = some (mkSkill "metrics" "Metrics" 5 ["precision", "recall"] [])) ∧
    dget? metricsExtraction.coverage_by_skill "metrics"
      = some (spec_confidence 0.95
          (distinct_match_count "Used precision and recall for evaluation."
            (mkSkill "metrics" "Metrics" 5 ["precision", "recall"] [])
            (effective_synonyms none))
          (name_mentioned "Used precision and recall for evaluation."
            (mkSkill "metrics" "Metrics" 5 ["precision", "recall"] []))) :=
  ⟨by with_unfolding_all decide, by with_unfolding_all decide,
   c3_confidence_step_formula.1 "Used precision and recall for evaluation." metricsMap
     none 0.95 (by with_unfolding_all decide) "metrics" _ (by with_unfolding_all decide)⟩

/-- C10: for every text and well-formed catalog, extraction's coverage and
evidence mappings are keyed by exactly the catalog's skill ids, and with the
default cap 0.95 every confidence lies in the interval from 0.05 to 0.95; in
particular no confidence is ever exactly 0. -/
theorem c10_extraction_domain_and_range :
    ∀ (user_text : String) (skill_map : SkillMap), skill_map.WF →
      dkeys (extract_skill_coverage user_text skill_map none 0.95).coverage_by_skill
        = dkeys skill_map.skills_by_id ∧
      dkeys (extract_skill_coverage user_text skill_map none 0.95).evidence_by_skill
        = dkeys skill_map.skills_by_id ∧
      ∀ p ∈ (extract_skill_coverage user_text skill_map none 0.95).coverage_by_skill,
        0.05 ≤ p.2 ∧ p.2 ≤ 0.95 ∧ p.2 ≠ 0 := by
  intro t m hWF
  obtain ⟨hnd, hid⟩ := hWF
  refine ⟨?_, ?_, ?_⟩
  · rw [extract_coverage_eq t m none 0.95 ⟨hnd, hid⟩]
    unfold dkeys
    rw [List.map_map]
    exact values_id_eq_keys hid
  · rw [extract_evidence_eq t m none 0.95 ⟨hnd, hid⟩]
    unfold dkeys
    rw [List.map_map]
    exact values_id_eq_keys hid
  · intro p hp
    rw [extract_coverage_eq t m none 0.95 ⟨hnd, hid⟩] at hp
    obtain ⟨sk, _, hpk⟩ := List.mem_map.mp hp
    obtain ⟨hb1, hb2⟩ :=
      extract_one_conf_bounds (pyNormalize t) (effective_synonyms none) sk
    rw [← hpk]
    refine ⟨hb1, hb2, ?_⟩
    intro h0
    simp only at h0
    rw [h0] at hb1
    norm_num at hb1

/-- C10 witness: domain and range facts applied to the metrics catalog with
empty input text. -/
theorem c10_extraction_witness :
    metricsMap.WF ∧
    (dkeys (extract_skill_coverage "" metricsMap none 0.95).coverage_by_skill
        = dkeys metricsMap.skills_by_id ∧
      dkeys (extract_skill_coverage "" metricsMap none 0.95).evidence_by_skill
        = dkeys metricsMap.skills_by_id ∧
      ∀ p ∈ (extract_skill_coverage "" metricsMap none 0.95).coverage_by_skill,
        0.05 ≤ p.2 ∧ p.2 ≤ 0.95 ∧ p.2 ≠ 0) :=
  ⟨by with_unfolding_all decide,
   c10_extraction_domain_and_range "" metricsMap (by with_unfolding_all decide)⟩

theorem gapLeB_iff (g1 g2 : Gap) : gapLeB g1 g2 = true ↔ GapPriorityLE g1 g2 := by
  simp only [gapLeB, gapKey, decide_eq_true_eq, Prod.Lex.le_iff, neg_lt_neg_iff,
    neg_inj, Int.cast_lt, Int.cast_inj, GapPriorityLE]

theorem gapLeB_trans : ∀ (a b c : Gap), gapLeB a b → gapLeB b c → gapLeB a c := by
  intro a b c h1 h2
  simp only [gapLeB, decide_eq_true_eq] at h1 h2 ⊢
  exact le_trans h1 h2

theorem gapLeB_total : ∀ (a b : Gap), gapLeB a b || gapLeB b a := by
  intro a b
  rcases le_total (gapKey a) (gapKey b) with h | h <;> simp [gapLeB, h]

/-- C5: the scorer's top_gaps list is ordered by impact (gap times weight)
descending with ties broken by weight descending, then raw gap descending,
then lowercased skill name ascending; this relation is total, and re-running
score_readiness on identical inputs returns the identical report. -/
theorem c5_gap_ranking_total_order :
    ∀ (skill_map : SkillMap) (extraction : ExtractionResult) (top_k_gaps : Nat)
      (prereq_penalty : ℚ),
      (score_readiness skill_map extraction top_k_gaps prereq_penalty).top_gaps.Pairwise
        GapPriorityLE ∧
      (∀ g1 g2 : Gap, GapPriorityLE g1 g2 ∨ GapPriorityLE g2 g1) ∧
      score_readiness skill_map extraction top_k_gaps prereq_penalty
        = score_readiness skill_map extraction top_k_gaps prereq_penalty := by
  intro m e k pen
  refine ⟨?_, ?_, rfl⟩
  · have hs := List.sorted_mergeSort gapLeB_trans gapLeB_total
      (compute_gaps m e.coverage_by_skill pen)
    have htop : (score_readiness m e k pen).top_gaps
        = ((compute_gaps m e.coverage_by_skill pen).mergeSort gapLeB).take k := rfl
    rw [htop]
    exact ((hs.sublist (List.take_sublist k _)).imp fun h => (gapLeB_iff _ _).mp h)
  · intro g1 g2
    rcases le_total (gapKey g1) (gapKey g2) with h | h
    · exact Or.inl ((gapLeB_iff g1 g2).mp (decide_eq_true h))
    · exact Or.inr ((gapLeB_iff g2 g1).mp (decide_eq_true h))

theorem add_task_inv {M : Int} {st : PlanState} (day : Int) (rngF : Nat → Nat)
    (skill : Skill) (task_type : TaskType) (minutes : Int) (check : String)
    (h : PlanInv M st) : PlanInv M (add_task M day rngF st skill task_type minutes check) := by
  obtain ⟨hsum, hle, hpos⟩ := h
  unfold add_task
  by_cases h1 : minutes ≤ 0
  · rw [if_pos h1]
    exact ⟨hsum, hle, hpos⟩
  · rw [if_neg h1]
    set m2 := if M < st.used_minutes + minutes then max 0 (M - st.used_minutes) else minutes
      with hm2
    by_cases h2 : m2 ≤ 0
    · rw [if_pos h2]
      exact ⟨hsum, hle, hpos⟩
    · rw [if_neg h2]
      have hm2pos : 0 < m2 := not_le.mp h2
      have hused : st.used_minutes + m2 ≤ M := by
        rw [hm2]
        split_ifs with h3
        · omega
        · omega
      refine ⟨?_, hused, ?_⟩
      · show st.used_minutes + m2 = _
        simp only [List.map_append, List.sum_append, List.map_cons, List.map_nil,
          List.sum_cons, List.sum_nil]
        omega
      · intro it hit
        rcases List.mem_append.mp hit with hmem | hmem
        · exact hpos it hmem
        · have : it = ⟨day, st.order, skill.id, skill.name, skill.category, task_type,
              m2, (choose_resource rngF skill task_type st.rng).1.title,
              (choose_resource rngF skill task_type st.rng).1.url,
              (choose_resource rngF skill task_type st.rng).1.type,
              (choose_resource rngF skill task_type st.rng).1.credibility, check⟩ := by
            simpa using hmem
          rw [this]
          exact hm2pos

theorem retry_step_inv {skill_map : SkillMap} {M : Int} (day : Int) (rngF : Nat → Nat) :
    ∀ (st : PlanState) (sid : String), PlanInv M st →
      PlanInv M (retry_step skill_map M day rngF st sid) := by
  intro st sid h
  unfold retry_step
  rcases hdget : dget? skill_map.skills_by_id sid with _ | s
  · exact h
  · exact add_task_inv _ _ _ _ _ _ h

theorem reinforce_step_inv {skill_map : SkillMap} {M : Int} (day : Int) (rngF : Nat → Nat) :
    ∀ (st : PlanState) (sid : String), PlanInv M st →
      PlanInv M (reinforce_step skill_map M day rngF st sid) := by
  intro st sid h
  unfold reinforce_step
  rcases hdget : dget? skill_map.skills_by_id sid with _ | s
  · exact h
  · exact add_task_inv _ _ _ _ _ _ h

theorem focus_step_inv {skill_map : SkillMap} {mastery : List (String × ℚ)} {M : Int}
    (day : Int) (rngF : Nat → Nat) :
    ∀ (fs : FocusState) (sid : String), PlanInv M fs.st →
      PlanInv M (focus_step skill_map mastery M day rngF fs sid).st := by
  intro fs sid h
  have hprim : ∀ (fs : FocusState) (s : Skill), PlanInv M fs.st →
      PlanInv M (focus_primer skill_map mastery M day rngF fs s).st := by
    intro fs s hfs
    unfold focus_primer
    split
    · exact hfs
    · split
      · exact hfs
      · exact add_task_inv _ _ _ _ _ _ hfs
  unfold focus_step
  split
  · exact h
  · exact add_task_inv _ _ _ _ _ _ (add_task_inv _ _ _ _ _ _
      (add_task_inv _ _ _ _ _ _ (hprim fs _ h)))

theorem review_phase_inv {skill_map : SkillMap} {M : Int} (day : Int) (rngF : Nat → Nat)
    (review_id : Option String) (st : PlanState) (h : PlanInv M st) :
    PlanInv M (review_phase skill_map M day rngF review_id st) := by
  unfold review_phase
  split
  · exact h
  · split
    · split
      · exact h
      · exact add_task_inv _ _ _ _ _ _ h
    · exact h

theorem overflow_phase_inv {skill_map : SkillMap} {gaps : List Gap} {M : Int}
    {day : Int} {rngF : Nat → Nat} {st st' : PlanState}
    (h : overflow_phase skill_map gaps M day rngF st = some st') (hInv : PlanInv M st) :
    PlanInv M st' := by
  unfold overflow_phase at h
  split at h
  · split at h
    · exact (Option.some.inj h) ▸ hInv
    · split at h
      · cases h
      · rw [← Option.some.inj h]
        exact add_task_inv _ _ _ _ _ _ hInv
  · exact (Option.some.inj h) ▸ hInv

theorem plan_inv_start (M : Int) (hM : 0 ≤ M) : PlanInv M (⟨[], 1, 0, 0⟩ : PlanState) :=
  ⟨rfl, hM, fun it hit => absurd hit (List.not_mem_nil it)⟩

theorem gdp_emit_def (rngF : Nat → Nat) (day : Int) (skill_map : SkillMap)
    (mastery : List (String × ℚ)) (M : Int) (gap_ranked : List Gap)
    (notes : List String) (focus_ids : List String) (review_id : Option String)
    (reinforce_skills retry_skills : List String) :
    gdp_emit rngF day skill_map mastery M gap_ranked notes focus_ids review_id
      reinforce_skills retry_skills
    = (match overflow_phase skill_map gap_ranked M day rngF
          (review_phase skill_map M day rngF review_id
            (focus_ids.foldl (focus_step skill_map mastery M day rngF)
              ⟨(reinforce_skills.take 2).foldl (reinforce_step skill_map M day rngF)
                  ((retry_skills.take 2).foldl (retry_step skill_map M day rngF) ⟨[], 1, 0, 0⟩),
                py_round ((M : ℚ) * 0.45), py_round ((M : ℚ) * 0.45),
                M - py_round ((M : ℚ) * 0.45) - py_round ((M : ℚ) * 0.45), notes⟩).st) with
      | none => none
      | some st =>
        some ⟨day, min M st.used_minutes, st.items,
          (focus_ids.foldl (focus_step skill_map mastery M day rngF)
              ⟨(reinforce_skills.take 2).foldl (reinforce_step skill_map M day rngF)
                  ((retry_skills.take 2).foldl (retry_step skill_map M day rngF) ⟨[], 1, 0, 0⟩),
                py_round ((M : ℚ) * 0.45), py_round ((M : ℚ) * 0.45),
                M - py_round ((M : ℚ) * 0.45) - py_round ((M : ℚ) * 0.45), notes⟩).notes ++
            [if st.items.isEmpty then "No tasks were generated — check your skill map and inputs."
             else "Tip: mark tasks as done + difficulty — tomorrow’s plan adapts automatically."]⟩) :=
  rfl

theorem generate_day_plan_with_def (rngF : Nat → Nat) (day : Int) (report : ScoreReport)
    (skill_map : SkillMap) (mastery : List (String × ℚ)) (minutes_per_day : Int)
    (reinforce_skills retry_skills : List String) (top_gap_pool : Nat) :
    generate_day_plan_with rngF day report skill_map mastery minutes_per_day
      reinforce_skills retry_skills top_gap_pool
    = (if (pick_focus_skills
            (gdp_candidates skill_map (rank_gaps_by_mastery skill_map mastery)
              reinforce_skills retry_skills top_gap_pool) mastery 2).isEmpty
          && (pick_review_skill skill_map mastery
            (pick_focus_skills
              (gdp_candidates skill_map (rank_gaps_by_mastery skill_map mastery)
                reinforce_skills retry_skills top_gap_pool) mastery 2)).isNone
          && skill_map.skills_by_id.isEmpty then none
       else gdp_emit rngF day skill_map mastery (max 30 minutes_per_day)
         (rank_gaps_by_mastery skill_map mastery) (gdp_notes reinforce_skills retry_skills)
         (pick_focus_skills
           (gdp_candidates skill_map (rank_gaps_by_mastery skill_map mastery)
             reinforce_skills retry_skills top_gap_pool) mastery 2)
         (pick_review_skill skill_map mastery
           (pick_focus_skills
             (gdp_candidates skill_map (rank_gaps_by_mastery skill_map mastery)
               reinforce_skills retry_skills top_gap_pool) mastery 2))
         reinforce_skills retry_skills) :=
  rfl

theorem gdp_emit_inv (rngF : Nat → Nat) (day : Int) (skill_map : SkillMap)
    (mastery : List (String × ℚ)) (M : Int) (gap_ranked : List Gap)
    (notes : List String) (focus_ids : List String) (review_id : Option String)
    (reinforce_skills retry_skills : List String) (plan : DayPlan) (hM : (0 : Int) ≤ M)
    (h : gdp_emit rngF day skill_map mastery M gap_ranked notes focus_ids review_id
      reinforce_skills retry_skills = some plan) :
    (∀ it ∈ plan.items, 0 < it.minutes) ∧
    (plan.items.map PlanItem.minutes).sum ≤ M ∧
    plan.total_minutes = min M ((plan.items.map PlanItem.minutes).sum) := by
  rw [gdp_emit_def] at h
  split at h
  · exact Option.noConfusion h
  · rename_i st heq
    have h5 := overflow_phase_inv heq
      (review_phase_inv day rngF _ _
        (@foldl_preserves FocusState String (fun fs => PlanInv M fs.st) _
          (focus_step_inv day rngF) _ _
          (foldl_preserves (reinforce_step_inv day rngF) _ _
            (foldl_preserves (retry_step_inv day rngF) _ _
              (plan_inv_start M hM)))))
    obtain ⟨hsum, hle, hpos⟩ := h5
    have hplan := Option.some.inj h
    rw [← hplan]
    refine ⟨fun it hit => hpos it hit, ?_, ?_⟩
    · rw [← hsum]
      exact hle
    · show min M st.used_minutes = _
      rw [hsum]

theorem generate_day_plan_with_inv (rngF : Nat → Nat) (day : Int) (report : ScoreReport)
    (skill_map : SkillMap) (mastery : List (String × ℚ)) (minutes_per_day : Int)
    (reinforce_skills retry_skills : List String) (top_gap_pool : Nat) (plan : DayPlan)
    (h : generate_day_plan_with rngF day report skill_map mastery minutes_per_day
      reinforce_skills retry_skills top_gap_pool = some plan) :
    (∀ it ∈ plan.items, 0 < it.minutes) ∧
    (plan.items.map PlanItem.minutes).sum ≤ max 30 minutes_per_day ∧
    plan.total_minutes
      = min (max 30 minutes_per_day) ((plan.items.map PlanItem.minutes).sum) := by
  have hM : (0 : Int) ≤ max 30 minutes_per_day :=
    le_trans (by norm_num) (le_max_left 30 minutes_per_day)
  rw [generate_day_plan_with_def] at h
  split at h
  · exact Option.noConfusion h
  · exact gdp_emit_inv _ _ _ _ _ _ _ _ _ _ _ _ hM h

/-- C2 (amended): every call of generate_day_plan that returns a plan yields
only items with positive minutes, with the summed item minutes never above the
effective daily budget max(30, minutes_per_day), and total_minutes equal to
min of that effective budget and the minutes actually consumed. As stated the
claim is false for requests below 30 minutes: the planner first clamps the
request up to 30, so the sum may exceed minutes_per_day itself. -/
theorem c2_plan_minutes_invariants :
    ∀ (rng_model : Int → Nat → Nat) (day : Int) (report : ScoreReport)
      (skill_map : SkillMap) (mastery : List (String × ℚ)) (minutes_per_day : Int)
      (reinforce_skills retry_skills : List String) (seed : Int) (top_gap_pool : Nat),
      match generate_day_plan rng_model day report skill_map mastery minutes_per_day
        reinforce_skills retry_skills seed top_gap_pool with
      | none => True
      | some plan =>
        (∀ it ∈ plan.items, 0 < it.minutes) ∧
        (plan.items.map PlanItem.minutes).sum ≤ max 30 minutes_per_day ∧
        plan.total_minutes
          = min (max 30 minutes_per_day) ((plan.items.map PlanItem.minutes).sum) := by
  intro rngM day rpt m mastery mpd rf rt seed pool
  split
  · trivial
  · rename_i plan heq
    exact generate_day_plan_with_inv (rngM (seed + day)) day rpt m mastery mpd rf rt pool
      plan heq

theorem overflow_phase_ne_none {skill_map : SkillMap} {gaps : List Gap} {M : Int}
    {day : Int} {rngF : Nat → Nat}
    (h : ∀ g ∈ gaps, (dget? skill_map.skills_by_id g.skill_id).isSome = true)
    (st : PlanState) : overflow_phase skill_map gaps M day rngF st ≠ none := by
  unfold overflow_phase
  split
  · split
    · exact fun hcon => Option.noConfusion hcon
    · rename_i g hf
      split
      · rename_i hd
        have hg := h g (List.mem_of_find?_eq_some hf)
        rw [hd] at hg
        simp at hg
      · exact fun hcon => Option.noConfusion hcon
  · exact fun hcon => Option.noConfusion hcon

theorem gdp_emit_isSome {skill_map : SkillMap} {gap_ranked : List Gap}
    (rngF : Nat → Nat) (day : Int) (mastery : List (String × ℚ)) (M : Int)
    (notes : List String) (focus_ids : List String) (review_id : Option String)
    (reinforce_skills retry_skills : List String)
    (h : ∀ g ∈ gap_ranked, (dget? skill_map.skills_by_id g.skill_id).isSome = true) :
    (gdp_emit rngF day skill_map mastery M gap_ranked notes focus_ids review_id
      reinforce_skills retry_skills).isSome = true := by
  rw [gdp_emit_def]
  split
  · rename_i heq
    exact absurd heq (overflow_phase_ne_none h _)
  · rfl

theorem rank_gaps_mem {skill_map : SkillMap} {mastery : List (String × ℚ)} {g : Gap}
    (h : g ∈ rank_gaps_by_mastery skill_map mastery) :
    ∃ s ∈ dvalues skill_map.skills_by_id, g.skill_id = s.id := by
  unfold rank_gaps_by_mastery at h
  rw [List.mem_mergeSort] at h
  obtain ⟨s, hs, hrec⟩ := List.mem_map.mp h
  exact ⟨s, hs, by rw [← hrec]⟩

/-- C7: for every well-formed non-empty catalog and every input text (the
empty string included), the composed pipeline — extraction, scoring, initial
mastery, then planning — returns a DayPlan: no step of the embedding reaches
a failure point. -/
theorem c7_pipeline_total :
    ∀ (rng_model : Int → Nat → Nat) (user_text : String) (skill_map : SkillMap)
      (day minutes_per_day seed : Int) (reinforce_skills retry_skills : List String)
      (top_gap_pool top_k_gaps : Nat) (prereq_penalty : ℚ),
      skill_map.WF → skill_map.skills_by_id ≠ [] →
      (generate_day_plan rng_model day
          (score_readiness skill_map (extract_skill_coverage user_text skill_map none 0.95)
            top_k_gaps prereq_penalty)
          skill_map
          (init_mastery_from_report
            (score_readiness skill_map (extract_skill_coverage user_text skill_map none 0.95)
              top_k_gaps prereq_penalty))
          minutes_per_day reinforce_skills retry_skills seed top_gap_pool).isSome = true := by
  intro rngM t m day mpd seed rf rt pool topk pen hWF hne
  have hemp : m.skills_by_id.isEmpty = false := by
    rcases hm : m.skills_by_id with _ | _
    · exact absurd hm hne
    · rfl
  have hmem : ∀ g ∈ rank_gaps_by_mastery m
      (init_mastery_from_report
        (score_readiness m (extract_skill_coverage t m none 0.95) topk pen)),
      (dget? m.skills_by_id g.skill_id).isSome = true := by
    intro g hg
    obtain ⟨s, hs, hgid⟩ := rank_gaps_mem hg
    rw [hgid]
    exact dget?_isSome_of_value_mem hWF.2 hs
  show (generate_day_plan_with _ _ _ _ _ _ _ _ _).isSome = true
  rw [generate_day_plan_with_def]
  simp only [hemp, Bool.and_false, Bool.false_eq_true, if_false, ite_false]
  exact gdp_emit_isSome _ _ _ _ _ _ _ _ _ hmem

/-- C7 witness: the pipeline applied to the concrete metrics catalog and the
sample text. -/
theorem c7_pipeline_witness :
    metricsMap.WF ∧ metricsMap.skills_by_id ≠ [] ∧
    (generate_day_plan rngZero 1
        (score_readiness metricsMap
          (extract_skill_coverage "Used precision and recall for evaluation." metricsMap none 0.95)
          6 0.10)
        metricsMap
        (init_mastery_from_report
          (score_readiness metricsMap
            (extract_skill_coverage "Used precision and recall for evaluation." metricsMap none 0.95)
            6 0.10))
        120 [] [] 7 8).isSome = true :=
  ⟨by with_unfolding_all decide, by with_unfolding_all decide,
   c7_pipeline_total rngZero "Used precision and recall for evaluation." metricsMap 1 120 7
     [] [] 8 6 0.10 (by with_unfolding_all decide) (by with_unfolding_all decide)⟩

/-- C8: planning is deterministic: two calls of generate_day_plan with
identical day, report, catalog, mastery, budget, queues, seed and pool agree,
and the only pseudo-randomness is the draw stream built from seed + day, as
the factoring through generate_day_plan_with shows. -/
theorem c8_plan_deterministic (rng_model : Int → Nat → Nat) (day : Int)
    (report : ScoreReport) (skill_map : SkillMap)
    (mastery_by_skill : List (String × ℚ)) (minutes_per_day : Int)
    (reinforce_skills retry_skills : List String) (seed : Int) (top_gap_pool : Nat) :
    generate_day_plan rng_model day report skill_map mastery_by_skill minutes_per_day
        reinforce_skills retry_skills seed top_gap_pool
      = generate_day_plan rng_model day report skill_map mastery_by_skill minutes_per_day
        reinforce_skills retry_skills seed top_gap_pool ∧
    generate_day_plan rng_model day report skill_map mastery_by_skill minutes_per_day
        reinforce_skills retry_skills seed top_gap_pool
      = generate_day_plan_with (rng_model (seed + day)) day report skill_map mastery_by_skill
        minutes_per_day reinforce_skills retry_skills top_gap_pool :=
  ⟨rfl, rfl⟩

/-- C9: passing an explicitly empty synonym table to extraction behaves
exactly like omitting it: the falsy empty dict falls back to the built-in
DEFAULT_SYNONYMS, so an empty mapping cannot disable synonyms. -/
theorem c9_empty_synonyms_use_default (user_text : String) (skill_map : SkillMap)
    (max_confidence : ℚ) :
    extract_skill_coverage user_text skill_map (some []) max_confidence
      = extract_skill_coverage user_text skill_map none max_confidence := rfl

end PrepGap
